import Mathlib

/-!
Verification development for the socratspace backend
(`backend/services/crew_orchestrator.py`, `backend/api/sse.py`,
`backend/api/oauth_routes.py`, `backend/tools/mcp_client.py`,
`backend/tasks/decision_tasks.py`).

We give a shallow embedding of the data model and the operations of the
execution/coordination core and prove (or refute) the testable properties
stated in the specification.  Python dicts are modelled as association
lists (last binding wins, as produced by `json.loads`), machine strings as
`String`, and the JSON library as an executable parser `parseJson`
faithful to `json.loads` on the inputs exercised here.
-/

namespace Socratspace

/-- JSON values as produced by Python's `json.loads`.  Numeric literals are
kept as their lexemes, which is enough for the decision-extraction logic
(it never inspects numbers). -/
inductive Json where
  | null : Json
  | bool : Bool → Json
  | num : String → Json
  | str : String → Json
  | arr : List Json → Json
  | obj : List (String × Json) → Json

/-- Dictionary field lookup: in a Python dict built by `json.loads`,
a repeated key keeps its last value. -/
def Json.getField : Json → String → Option Json
  | .obj kvs, k => ((kvs.filter (fun p => p.1 == k)).getLast?).map (fun p => p.2)
  | _, _ => none

/-- `decision.get(k)` returning the string value, when the field holds a
string. -/
def Json.getStr (j : Json) (k : String) : Option String :=
  match j.getField k with
  | some (.str s) => some s
  | _ => none

/-! ## RoundPipeline: the 17-task context graph

`VCCouncilOrchestrator._run_analysis` builds tasks 1..17 with the literal
context lists below (crew_orchestrator.py lines 147-231). -/

/-- Context list of each of the 17 tasks, exactly as the source passes
`context=[...]` to each `create_*_task` call.  Task numbers are 1-based. -/
def taskContext : Nat → List Nat
  | 1 => []
  | 2 => [1]
  | 3 => [1, 2]
  | 4 => [1, 2, 3]
  | 5 => []
  | 6 => [5]
  | 7 => [5, 6]
  | 8 => [5, 6, 7]
  | 9 => []
  | 10 => [9]
  | 11 => [9, 10]
  | 12 => [9, 10, 11]
  | 13 => []
  | 14 => [13]
  | 15 => [13, 14]
  | 16 => [13, 14, 15]
  | 17 => [1, 2, 3, 4, 5, 6, 7, 8, 9, 10, 11, 12, 13, 14, 15, 16]
  | _ => []

/-! ## EventBus: SSEManager (backend/api/sse.py)

`session_queues` maps a session id to the list of per-subscriber queues;
each queue is a FIFO list of `{type, data}` messages (`asyncio.Queue.put`
appends at the tail). -/

/-- One SSE message, the `{"type": event_type, "data": data}` dict built in
`SSEManager.broadcast`. -/
structure SSEMessage where
  type : String
  data : Json

/-- The `session_queues` dict: session id → list of subscriber queues. -/
def SSEState := List (String × List (List SSEMessage))

/-- Lookup of `session_queues[session_id]` (dict semantics; keys are
unique, first match). -/
def lookupQueues : SSEState → String → Option (List (List SSEMessage))
  | [], _ => none
  | (k, v) :: rest, sid => if k = sid then some v else lookupQueues rest sid

/-- Replace the queue list bound to a session id. -/
def setQueues : SSEState → String → List (List SSEMessage) → SSEState
  | [], _, _ => []
  | (k, v) :: rest, sid, qs =>
      if k = sid then (k, qs) :: rest else (k, v) :: setQueues rest sid qs

/-- `SSEManager.broadcast`: if the session has no registered entry, return
without effect; otherwise append the same message to every queue of the
session (sse.py lines 59-82). -/
def broadcast (st : SSEState) (sid : String) (etype : String) (data : Json) :
    SSEState :=
  match lookupQueues st sid with
  | none => st
  | some qs => setQueues st sid (qs.map (fun q => q ++ [⟨etype, data⟩]))

/-- A sequence of broadcasts to the same session, in publish order. -/
def broadcastAll (st : SSEState) (sid : String) :
    List (String × Json) → SSEState
  | [] => st
  | m :: ms => broadcastAll (broadcast st sid m.1 m.2) sid ms

/-! ## Progress attribution: `_step_callback`
(crew_orchestrator.py lines 532-599) -/

/-- The loosely-typed step output inspected by `_step_callback`:
an `AgentFinish` object (whose `.output` attribute may be missing), any
other object with a truthy-checked `.thought` attribute, or anything
else. -/
inductive StepOutput where
  | agentFinish : Option String → StepOutput
  | thought : String → StepOutput
  | other : StepOutput
deriving DecidableEq

/-- Message broadcast by the callback: text and `message_type`. -/
structure AgentMsg where
  message : String
  messageType : String
deriving DecidableEq

/-- `Char` list prefix test, the model of Python's `str.startswith`. -/
def isPrefixList : List Char → List Char → Bool
  | [], _ => true
  | _ :: _, [] => false
  | a :: as, b :: bs => a == b && isPrefixList as bs

/-- Python `s.startswith(pre)`. -/
def pyStartsWith (s pre : String) : Bool :=
  isPrefixList pre.data s.data

/-- `_step_callback` acting on one session's `current_task_index`.
`maxConcl` and `maxThought` are `settings.max_conclusion_chars` and
`settings.max_thought_chars`.  Returns the new index and the
`agent_message` broadcast, if any.  The index is bumped (capped at 16)
exactly when an `AgentFinish` with a conclusion message is broadcast. -/
def stepCallback (maxConcl maxThought : Nat) (idx : Nat) (so : StepOutput) :
    Nat × Option AgentMsg :=
  match so with
  | .agentFinish (some out) =>
      if out.length > 100 then
        let message := "✅ " ++ out.take maxConcl
        if message.trim.length > 0 then
          (if idx < 16 then idx + 1 else idx, some ⟨message, "conclusion"⟩)
        else (idx, none)
      else (idx, none)
  | .agentFinish none => (idx, none)
  | .thought t =>
      if t ≠ "" then
        if t.length > 20 ∧ pyStartsWith t "I tried reusing" = false then
          let message := "💭 " ++ t.take maxThought
          if message.trim.length > 0 then (idx, some ⟨message, "thought"⟩)
          else (idx, none)
        else (idx, none)
      else (idx, none)
  | .other => (idx, none)

/-- Folding a whole sequence of step callbacks over the index, starting
from `start`. -/
def runCallbacksFrom (maxConcl maxThought : Nat) (start : Nat)
    (sos : List StepOutput) : Nat :=
  sos.foldl (fun i so => (stepCallback maxConcl maxThought i so).1) start

/-- The session's pointer starts at 0 (`current_task_index[session_id] = 0`). -/
def runCallbacks (maxConcl maxThought : Nat) (sos : List StepOutput) : Nat :=
  runCallbacksFrom maxConcl maxThought 0 sos

/-! ## A model of Python's `json.loads`

Executable recursive-descent parser over `List Char`, following the JSON
grammar accepted by `json.loads` (strict mode): objects, arrays, strings
with escapes, numbers (lexemes kept verbatim, including the `NaN` /
`Infinity` constants Python accepts), `true`/`false`/`null`, with
`[ \t\n\r]` whitespace, and no trailing data.  (Astral `\u` surrogate
pairs are decoded as two separate code units here; no claim exercises
them.) -/

/-- The `{` character, and `}`. -/
def lbraceChar : Char := Char.ofNat 123

def rbraceChar : Char := Char.ofNat 125

/-- JSON whitespace, `json.decoder`'s `[ \t\n\r]`. -/
def jsonWs (c : Char) : Bool :=
  c == ' ' || c == '\t' || c == '\n' || c == Char.ofNat 13

def skipWs (cs : List Char) : List Char := cs.dropWhile jsonWs

def hexDigitVal (c : Char) : Option Nat :=
  if c.isDigit then some (c.toNat - 48)
  else if 'a' ≤ c ∧ c ≤ 'f' then some (c.toNat - 87)
  else if 'A' ≤ c ∧ c ≤ 'F' then some (c.toNat - 55)
  else none

/-- JSON string body (after the opening quote): escapes as in
`json.loads` strict mode, raw control characters rejected. -/
def parseStringBody : Nat → List Char → List Char → Option (String × List Char)
  | 0, _, _ => none
  | fuel + 1, acc, cs =>
    match cs with
    | [] => none
    | c :: rest =>
      if c == '"' then some (String.mk acc.reverse, rest)
      else if c == '\\' then
        match rest with
        | [] => none
        | e :: r2 =>
          if e == '"' then parseStringBody fuel ('"' :: acc) r2
          else if e == '\\' then parseStringBody fuel ('\\' :: acc) r2
          else if e == '/' then parseStringBody fuel ('/' :: acc) r2
          else if e == 'b' then parseStringBody fuel (Char.ofNat 8 :: acc) r2
          else if e == 'f' then parseStringBody fuel (Char.ofNat 12 :: acc) r2
          else if e == 'n' then parseStringBody fuel ('\n' :: acc) r2
          else if e == 'r' then parseStringBody fuel (Char.ofNat 13 :: acc) r2
          else if e == 't' then parseStringBody fuel ('\t' :: acc) r2
          else if e == 'u' then
            match r2 with
            | h1 :: h2 :: h3 :: h4 :: r3 =>
              match hexDigitVal h1, hexDigitVal h2, hexDigitVal h3,
                  hexDigitVal h4 with
              | some a, some b, some c2, some d =>
                  parseStringBody fuel
                    (Char.ofNat (4096 * a + 256 * b + 16 * c2 + d) :: acc) r3
              | _, _, _, _ => none
            | _ => none
          else none
      else if c.toNat < 32 then none
      else parseStringBody fuel (c :: acc) rest

/-- Fraction part of a number lexeme (maximal munch, as `NUMBER_RE`). -/
def numFrac (intPart : List Char) (cs : List Char) : List Char × List Char :=
  match cs with
  | '.' :: r =>
      let p := List.span Char.isDigit r
      if p.1.isEmpty then (intPart, cs) else (intPart ++ '.' :: p.1, p.2)
  | _ => (intPart, cs)

/-- Exponent part of a number lexeme. -/
def numExp (lex : List Char) (cs : List Char) : List Char × List Char :=
  match cs with
  | e :: r =>
      if e == 'e' || e == 'E' then
        match r with
        | s :: r2 =>
            if s == '+' || s == '-' then
              let p := List.span Char.isDigit r2
              if p.1.isEmpty then (lex, cs) else (lex ++ e :: s :: p.1, p.2)
            else
              let p := List.span Char.isDigit r
              if p.1.isEmpty then (lex, cs) else (lex ++ e :: p.1, p.2)
        | [] => (lex, cs)
      else (lex, cs)
  | [] => (lex, cs)

/-- Unsigned number lexeme: `0` or a nonzero-leading digit run, then
optional fraction and exponent. -/
def parseUnsignedNum (cs : List Char) : Option (List Char × List Char) :=
  match cs with
  | c :: rest =>
      if c == '0' then
        let p1 := numFrac ['0'] rest
        some (numExp p1.1 p1.2)
      else if c.isDigit then
        let p := List.span Char.isDigit cs
        let p1 := numFrac p.1 p.2
        some (numExp p1.1 p1.2)
      else none
  | [] => none

/-- Signed number lexeme. -/
def parseNumber (cs : List Char) : Option (List Char × List Char) :=
  match cs with
  | '-' :: rest =>
      match parseUnsignedNum rest with
      | some (lex, r) => some ('-' :: lex, r)
      | none => none
  | _ => parseUnsignedNum cs

/-- Case-sensitive literal matcher (for `true`, `false`, `null`, ...). -/
def dropExact : List Char → List Char → Option (List Char)
  | [], cs => some cs
  | _ :: _, [] => none
  | l :: ls, c :: cs2 => if l == c then dropExact ls cs2 else none

mutual

/-- One JSON value at the head of the input (no leading whitespace). -/
def parseValue : Nat → List Char → Option (Json × List Char)
  | 0, _ => none
  | fuel + 1, cs =>
    match cs with
    | [] => none
    | c :: rest =>
      if c == '"' then
        match parseStringBody (rest.length + 1) [] rest with
        | some (s, r) => some (.str s, r)
        | none => none
      else if c == lbraceChar then parseObjBody fuel (skipWs rest)
      else if c == '[' then parseArrBody fuel (skipWs rest)
      else if c == 't' then
        match dropExact ['r', 'u', 'e'] rest with
        | some r => some (.bool true, r)
        | none => none
      else if c == 'f' then
        match dropExact ['a', 'l', 's', 'e'] rest with
        | some r => some (.bool false, r)
        | none => none
      else if c == 'n' then
        match dropExact ['u', 'l', 'l'] rest with
        | some r => some (.null, r)
        | none => none
      else if c == 'N' then
        match dropExact ['a', 'N'] rest with
        | some r => some (.num "NaN", r)
        | none => none
      else if c == 'I' then
        match dropExact ['n', 'f', 'i', 'n', 'i', 't', 'y'] rest with
        | some r => some (.num "Infinity", r)
        | none => none
      else if c == '-' then
        match rest with
        | 'I' :: r2 =>
          match dropExact ['n', 'f', 'i', 'n', 'i', 't', 'y'] r2 with
          | some r => some (.num "-Infinity", r)
          | none => none
        | _ =>
          match parseNumber cs with
          | some (lex, r) => some (.num (String.mk lex), r)
          | none => none
      else
        match parseNumber cs with
        | some (lex, r) => some (.num (String.mk lex), r)
        | none => none

/-- Object body, after `{` and whitespace. -/
def parseObjBody : Nat → List Char → Option (Json × List Char)
  | 0, _ => none
  | fuel + 1, cs =>
    match cs with
    | c :: r => if c == rbraceChar then some (.obj [], r)
                else parseMembers fuel cs []
    | [] => none

/-- Comma-separated `"key": value` members, first key expected at head. -/
def parseMembers : Nat → List Char →
    List (String × Json) → Option (Json × List Char)
  | 0, _, _ => none
  | fuel + 1, cs, acc =>
    match cs with
    | '"' :: r0 =>
      match parseStringBody (r0.length + 1) [] r0 with
      | some (k, r1) =>
        match skipWs r1 with
        | ':' :: r3 =>
          match parseValue fuel (skipWs r3) with
          | some (v, r4) =>
            match skipWs r4 with
            | ',' :: r6 => parseMembers fuel (skipWs r6) (acc ++ [(k, v)])
            | cbr :: r6 =>
                if cbr == rbraceChar then some (.obj (acc ++ [(k, v)]), r6)
                else none
            | [] => none
          | none => none
        | _ => none
      | none => none
    | _ => none

/-- Array body, after `[` and whitespace. -/
def parseArrBody : Nat → List Char → Option (Json × List Char)
  | 0, _ => none
  | fuel + 1, cs =>
    match cs with
    | c :: r => if c == ']' then some (.arr [], r)
                else parseItems fuel cs []
    | [] => none

/-- Comma-separated array items, first item expected at head. -/
def parseItems : Nat → List Char → List Json → Option (Json × List Char)
  | 0, _, _ => none
  | fuel + 1, cs, acc =>
    match parseValue fuel cs with
    | some (v, r) =>
      match skipWs r with
      | ',' :: r3 => parseItems fuel (skipWs r3) (acc ++ [v])
      | c :: r3 => if c == ']' then some (.arr (acc ++ [v]), r3) else none
      | [] => none
    | none => none

end

/-- `json.loads` on a character list: skip leading whitespace, parse one
value, require only whitespace after ("Extra data" otherwise). -/
def parseJsonL (cs : List Char) : Option Json :=
  match parseValue (4 * cs.length + 16) (skipWs cs) with
  | some (v, rest) => if (skipWs rest).isEmpty then some v else none
  | none => none

/-- `json.loads` on a string. -/
def parseJson (s : String) : Option Json := parseJsonL s.data

/-! ## ResultExtractor: the decision-extraction logic of `_run_analysis`
(crew_orchestrator.py lines 362-420, string raw output) -/

/-- Result of the extraction block: a decision dict, or an uncaught
exception (the only uncaught raise is `json.loads` on a regex-matched
`calendar_events` substring). -/
inductive ExtractResult where
  | ok : Json → ExtractResult
  | raised : ExtractResult

/-- Python `str.find(c)`. -/
def firstIdxOf (c : Char) : List Char → Option Nat
  | [] => none
  | x :: xs => if x == c then some 0 else (firstIdxOf c xs).map (· + 1)

/-- Python `str.rfind(c)`. -/
def lastIdxOf (c : Char) (cs : List Char) : Option Nat :=
  match firstIdxOf c cs.reverse with
  | some i => some (cs.length - 1 - i)
  | none => none

/-- `raw_output[json_start:json_end]` with `json_start = raw.find('{')`
and `json_end = raw.rfind('}') + 1`, guarded by
`json_start != -1 and json_end > json_start`. -/
def braceSlice (cs : List Char) : Option (List Char) :=
  match firstIdxOf lbraceChar cs, lastIdxOf rbraceChar cs with
  | some i, some l =>
      if l + 1 > i then some ((cs.drop i).take (l + 1 - i)) else none
  | some _, none => none
  | none, _ => none

/-- Regex whitespace class for these patterns (`[ \t\n\r\f\v]`). -/
def reWs (c : Char) : Bool :=
  c == ' ' || c == '\t' || c == '\n' || c == Char.ofNat 13 ||
    c == Char.ofNat 12 || c == Char.ofNat 11

/-- Case-insensitive literal matcher (`re.IGNORECASE`, ASCII letters). -/
def dropLit : List Char → List Char → Option (List Char)
  | [], cs => some cs
  | _ :: _, [] => none
  | l :: ls, c :: cs2 =>
      if l.toLower == c.toLower then dropLit ls cs2 else none

/-- Match `"key"\s*:\s*"([^"]+)"` (case-insensitive) anchored at the head
of the input; returns the captured group. -/
def matchKeyAt (key : List Char) (cs : List Char) : Option String :=
  match cs with
  | '"' :: r0 =>
    match dropLit key r0 with
    | some ('"' :: r2) =>
      match r2.dropWhile reWs with
      | ':' :: r4 =>
        match r4.dropWhile reWs with
        | '"' :: r6 =>
          let p := List.span (fun c => c != '"') r6
          if p.1.isEmpty then none
          else
            match p.2 with
            | '"' :: _ => some (String.mk p.1)
            | _ => none
        | _ => none
      | _ => none
    | _ => none
  | _ => none

/-- `re.search` for `"key"\s*:\s*"([^"]+)"`: leftmost match wins. -/
def searchKeyVal (key : List Char) : List Char → Option String
  | [] => none
  | c :: rest =>
      match matchKeyAt key (c :: rest) with
      | some v => some v
      | none => searchKeyVal key rest

/-- Match `"calendar_events"\s*:\s*(\[[^\]]+\])` anchored at the head;
returns the captured bracketed substring. -/
def matchEventsAt (cs : List Char) : Option (List Char) :=
  match cs with
  | '"' :: r0 =>
    match dropLit "calendar_events".data r0 with
    | some ('"' :: r2) =>
      match r2.dropWhile reWs with
      | ':' :: r4 =>
        match r4.dropWhile reWs with
        | '[' :: r6 =>
          let p := List.span (fun c => c != ']') r6
          if p.1.isEmpty then none
          else
            match p.2 with
            | ']' :: _ => some ('[' :: p.1 ++ [']'])
            | _ => none
        | _ => none
      | _ => none
    | _ => none
  | _ => none

/-- `re.search` for the `calendar_events` pattern. -/
def searchEvents : List Char → Option (List Char)
  | [] => none
  | c :: rest =>
      match matchEventsAt (c :: rest) with
      | some v => some v
      | none => searchEvents rest

/-- Python `str.upper()` (ASCII letters). -/
def pyUpper (s : String) : String := String.mk (s.data.map Char.toUpper)

/-- Field-level regex recovery (lines 380-398 and 402-420, which are
identical): find a decision value, uppercase it, fill missing fields with
placeholders, and `json.loads` the `calendar_events` substring — the one
call not wrapped in a `try`, so its failure raises. -/
def regexRecovery (cs : List Char) : ExtractResult :=
  match searchKeyVal "decision".data cs with
  | some dv =>
      let r := (searchKeyVal "reasoning".data cs).getD "No reasoning provided"
      let m := (searchKeyVal "investment_memo".data cs).getD
        "No memo provided"
      match searchEvents cs with
      | some ev =>
          match parseJsonL ev with
          | some evj =>
              .ok (.obj [("decision", .str (pyUpper dv)),
                         ("reasoning", .str r),
                         ("investment_memo", .str m),
                         ("calendar_events", evj)])
          | none => .raised
      | none =>
          .ok (.obj [("decision", .str (pyUpper dv)),
                     ("reasoning", .str r),
                     ("investment_memo", .str m),
                     ("calendar_events", .arr [])])
  | none =>
      .ok (.obj [("decision", .str "ERROR"),
                 ("raw_output", .str (String.mk (cs.take 2000)))])

/-- The decision extraction on a string `raw_output`: embedded-JSON scan
between the first `{` and the last `}`, used verbatim on success; on
parse failure or absent braces, fall through to regex recovery. -/
def extractFromString (raw : String) : ExtractResult :=
  match (braceSlice raw.data).bind parseJsonL with
  | some v => .ok v
  | none => regexRecovery raw.data

/-! ## Pipeline failure semantics (`_run_analysis` lines 286-328,
437-440, 508-519)

`crew.kickoff` with `Process.sequential` runs the 17 tasks in order and
aborts at the first failing step, whose exception propagates out of
`asyncio.to_thread`.  We model the per-step generation call as
`runner : Nat → Except String String` (step number → output text or
exception message). -/

/-- Sequential execution over a list of step numbers: outputs of the
completed steps in order, and the first failure's message, if any.
A failing step stops the run. -/
def runStepsList (runner : Nat → Except String String) :
    List Nat → List String × Option String
  | [] => ([], none)
  | i :: rest =>
      match runner i with
      | .ok o =>
          let p := runStepsList runner rest
          (o :: p.1, p.2)
      | .error e => ([], some e)

/-- The steps actually attempted (invoked), in order. -/
def attemptedSteps (runner : Nat → Except String String) :
    List Nat → List Nat
  | [] => []
  | i :: rest =>
      match runner i with
      | .ok _ => i :: attemptedSteps runner rest
      | .error _ => [i]

/-- `crew.kickoff` over tasks 1..17. -/
def runSteps (runner : Nat → Except String String) :
    List String × Option String :=
  runStepsList runner (List.range' 1 17)

/-- The session fields touched by the success/failure paths of
`_run_analysis`.  `task_outputs = none` models the dict key being absent
(it is only written on the success path, line 439). -/
structure Session where
  status : String
  error : Option String
  task_outputs : Option (List String)
deriving DecidableEq

/-- `_run_analysis` around the `crew.kickoff` call: on an exception the
session becomes `failed` with the exception text stored verbatim
(lines 508-519); on success the outputs are captured, truncated to
`settings.max_task_output_chars`, and the session completes
(lines 291-328, 437-440). -/
def runAnalysis (maxOut : Nat) (runner : Nat → Except String String) :
    Session :=
  match runSteps runner with
  | (_, some e) => ⟨"failed", some e, none⟩
  | (outs, none) =>
      ⟨"completed", none, some (outs.map (fun o => o.take maxOut))⟩

/-- The `task_outputs` component of `get_result`:
`session.get("task_outputs", [])` (line 764). -/
def getResultOutputs (s : Session) : List String :=
  s.task_outputs.getD []

/-! ## AuthorizationBroker: `MetorialClient.create_oauth_session`
(backend/tools/mcp_client.py lines 54-125, `auto_wait=False` path, which
is also what the `/oauth/initiate` route calls) -/

/-- A Metorial OAuth session object: id, the deployment/service it was
created for, and the authorization URL. -/
structure OAuthSession where
  id : Nat
  service : String
  url : String
deriving DecidableEq

/-- The client state: `_oauth_sessions` (completed cache,
mcp_name → session), `_pending_oauth_sessions` (session_id → session),
and a counter standing for the provider's fresh-id supply. -/
structure MCPState where
  oauthSessions : List (String × OAuthSession)
  pendingSessions : List (Nat × OAuthSession)
  nextId : Nat
deriving DecidableEq

/-- `self.oauth_required` (mcp_client.py lines 40-46), with
`.get(mcp_name, False)` semantics. -/
def oauthRequired : String → Bool
  | "gcalendar" => true
  | "gdrive" => true
  | "github" => true
  | _ => false

/-- What `create_oauth_session(..., auto_wait=False)` returns. -/
structure OAuthCreateResult where
  session : OAuthSession
  url : Option String
  completed : Bool
deriving DecidableEq

/-- First-match association lookup (`mcp_name in self._oauth_sessions` /
`self._oauth_sessions[mcp_name]`; dict keys are unique). -/
def lookupSession (l : List (String × OAuthSession)) (k : String) :
    Option OAuthSession :=
  match l with
  | [] => none
  | p :: rest => if p.1 = k then some p.2 else lookupSession rest k

/-- The session object `self.metorial.oauth.sessions.create(...)`
returns: the provider hands out a fresh id and URL. -/
def freshOAuthSession (st : MCPState) (name : String) : OAuthSession :=
  ⟨st.nextId, name,
    "https://oauth.metorial.com/session/" ++ toString st.nextId⟩

/-- The client state after a fresh session was created and stored under
`_pending_oauth_sessions[oauth_session.id]`. -/
def afterCreate (st : MCPState) (name : String) : MCPState :=
  { st with
      pendingSessions :=
        st.pendingSessions
          ++ [((freshOAuthSession st name).id, freshOAuthSession st name)],
      nextId := st.nextId + 1 }

/-- `create_oauth_session(mcp_name, auto_wait=False)`.  `deployIds`
models `self.deployment_ids` (settings-derived; `none` is a missing or
falsy id).  Raising `ValueError` is the `.error` case.  A cached
*completed* session is reused; otherwise a fresh provider session is
created and tracked in `_pending_oauth_sessions` — the pending cache is
never consulted before creating. -/
def createOauthSessionNoWait (deployIds : String → Option String)
    (st : MCPState) (name : String) :
    Except String (MCPState × OAuthCreateResult) :=
  if oauthRequired name = false then
    .error "MCP does not require OAuth authentication"
  else
    match deployIds name with
    | none => .error "Deployment ID not configured for MCP"
    | some _ =>
        match lookupSession st.oauthSessions name with
        | some existing => .ok (st, ⟨existing, none, true⟩)
        | none =>
            .ok (afterCreate st name,
                 ⟨freshOAuthSession st name,
                   some (freshOAuthSession st name).url, false⟩)

/-- Number of tracked pending sessions belonging to a service. -/
def pendingCountFor (st : MCPState) (name : String) : Nat :=
  (st.pendingSessions.filter (fun p => p.2.service == name)).length

/-! ## DecisionResult construction: the `InvestmentDecision` pydantic
model (backend/tasks/decision_tasks.py lines 14-40) -/

/-- `CalendarEvent` pydantic model: five required fields, all typed. -/
structure CalendarEvent where
  title : String
  start_time : String
  end_time : String
  attendees : List String
  description : String
deriving DecidableEq

/-- `InvestmentDecision` pydantic model: `decision` is
`Literal["PASS", "MAYBE", "INVEST"]`; the other fields are required and
typed; no validator constrains the number of calendar events. -/
structure InvestmentDecision where
  decision : String
  reasoning : String
  investment_memo : String
  calendar_events : List CalendarEvent
deriving DecidableEq

/-- A JSON value as a `str` field. -/
def asStr : Json → Option String
  | .str s => some s
  | _ => none

/-- Validate every element of a JSON array as a `str`. -/
def asStrListAux : List Json → Option (List String)
  | [] => some []
  | j :: rest =>
      match asStr j, asStrListAux rest with
      | some s, some t => some (s :: t)
      | _, _ => none

/-- A JSON value as a `List[str]` field. -/
def asStrList : Json → Option (List String)
  | .arr l => asStrListAux l
  | _ => none

/-- Pydantic validation of one `CalendarEvent`: every field present with
the right type. -/
def validateCalendarEvent (j : Json) : Option CalendarEvent := do
  let title ← (j.getField "title").bind asStr
  let st ← (j.getField "start_time").bind asStr
  let et ← (j.getField "end_time").bind asStr
  let atts ← (j.getField "attendees").bind asStrList
  let desc ← (j.getField "description").bind asStr
  pure ⟨title, st, et, atts, desc⟩

/-- Validate every element of the `calendar_events` array. -/
def validateEvents : List Json → Option (List CalendarEvent)
  | [] => some []
  | j :: rest =>
      match validateCalendarEvent j, validateEvents rest with
      | some e, some t => some (e :: t)
      | _, _ => none

/-- Pydantic validation of `InvestmentDecision`: the decision literal and
the field types are all that is checked — the model has no count or
ordering validator. -/
def validateInvestmentDecision (j : Json) : Option InvestmentDecision :=
  match (j.getField "decision").bind asStr,
      (j.getField "reasoning").bind asStr,
      (j.getField "investment_memo").bind asStr,
      j.getField "calendar_events" with
  | some d, some r, some m, some (.arr l) =>
      if d = "PASS" ∨ d = "MAYBE" ∨ d = "INVEST" then
        match validateEvents l with
        | some evs => some ⟨d, r, m, evs⟩
        | none => none
      else none
  | _, _, _, _ => none

/-- JSON encoding of a `CalendarEvent` (the shape the model accepts). -/
def encodeCalendarEvent (e : CalendarEvent) : Json :=
  .obj [("title", .str e.title), ("start_time", .str e.start_time),
        ("end_time", .str e.end_time),
        ("attendees", .arr (e.attendees.map Json.str)),
        ("description", .str e.description)]

/-- JSON encoding of a full decision payload. -/
def mkDecisionJson (d r m : String) (evs : List CalendarEvent) : Json :=
  .obj [("decision", .str d), ("reasoning", .str r),
        ("investment_memo", .str m),
        ("calendar_events", .arr (evs.map encodeCalendarEvent))]

/-! ## Post-decision event flow of `_run_analysis`
(crew_orchestrator.py lines 443-497) -/

/-- The twelve uncertainty keywords of lines 453-457. -/
def uncertaintyKeywords : List String :=
  ["uncertain", "split", "unclear", "validate",
   "need more", "external", "assumptions", "divided",
   "conflicting", "inconclusive", "verify", "investigate"]

/-- Substring containment, Python's `needle in hay`. -/
def isSubstrList (needle : List Char) : List Char → Bool
  | [] => needle.isEmpty
  | c :: rest => isPrefixList needle (c :: rest) || isSubstrList needle rest

/-- Python `str.lower()` (ASCII letters). -/
def pyLower (s : String) : String := String.mk (s.data.map Char.toLower)

/-- `should_hire = any(kw in reasoning.lower() for kw in
uncertainty_keywords)` (line 458). -/
def shouldHire (reasoning : String) : Bool :=
  uncertaintyKeywords.any
    (fun kw => isSubstrList kw.data (pyLower reasoning).data)

/-- Python truthiness of a JSON-decoded value. -/
def pyTruthy : Json → Bool
  | .null => false
  | .bool b => b
  | .num s => !(s == "0" || s == "-0" || s == "0.0" || s == "-0.0")
  | .str s => !(s == "")
  | .arr l => !l.isEmpty
  | .obj l => !l.isEmpty

/-- `"k" in d and d["k"]` (truthy field test). -/
def truthyField (d : Json) (k : String) : Bool :=
  match d.getField k with
  | none => false
  | some v => pyTruthy v

/-- SSE events published after the crew completes, by type. -/
inductive Event where
  | decisionEvt : Json → Event
  | agentMessage : String → String → String → Event
  | freelancerNotification : String → Event
  | phaseChange : String → Event

/-- Is this a `freelancer_job_notification` event? -/
def Event.isFreelancer : Event → Bool
  | .freelancerNotification _ => true
  | _ => false

/-- Lines 449-489: when the decision is `MAYBE` and the reasoning
contains an uncertainty keyword, a lead-partner message is published and
— if the external job-content generation call returns — the
`freelancer_job_notification` broadcast follows; the generation failure
is swallowed by the inner `try`. -/
def freelancerBlock (decision : Json)
    (jobContent : Except String String) : List Event :=
  if decision.getStr "decision" = some "MAYBE" then
    if shouldHire ((decision.getStr "reasoning").getD "") = true then
      Event.agentMessage "lead_partner"
          "Given the uncertainty in our analysis, I recommend commissioning an independent researcher. I\x27ve drafted a Freelancer job posting."
          "reasoning"
        :: (match jobContent with
            | .ok c => [Event.freelancerNotification c]
            | .error _ => [])
    else []
  else []

/-- Lines 495-496: `_create_calendar_events` runs (emitting its own
`agent_message`/`oauth_request` events, abstracted as `calendarMsgs`)
only when the decision has a truthy `calendar_events` field. -/
def calendarBlock (decision : Json) (calendarMsgs : List Event) :
    List Event :=
  if (pyTruthy decision && truthyField decision "calendar_events") = true
    then calendarMsgs else []

/-- Everything published between `send_decision` (line 443) and the
terminal phase change. -/
def preTerminalEvents (decision : Json) (jobContent : Except String String)
    (calendarMsgs : List Event) : List Event :=
  Event.decisionEvt decision ::
    (freelancerBlock decision jobContent
      ++ calendarBlock decision calendarMsgs)

/-- The whole post-decision event sequence, ending with
`phase_change "completed"` (line 497). -/
def postDecisionEvents (decision : Json)
    (jobContent : Except String String) (calendarMsgs : List Event) :
    List Event :=
  preTerminalEvents decision jobContent calendarMsgs
    ++ [Event.phaseChange "completed"]

end Socratspace

namespace Socratspace

/-! ### Supporting lemmas -/

theorem lookupQueues_setQueues_self (st : SSEState) (sid : String)
    (qs : List (List SSEMessage)) (h : (lookupQueues st sid).isSome) :
    lookupQueues (setQueues st sid qs) sid = some qs := by
  induction st with
  | nil => simp [lookupQueues] at h
  | cons p rest ih =>
      by_cases hk : p.1 = sid
      · simp [setQueues, lookupQueues, hk]
      · simp [setQueues, lookupQueues, hk] at h ⊢
        exact ih h

theorem lookupQueues_broadcast (st : SSEState) (sid et : String) (d : Json)
    (qs : List (List SSEMessage)) (h : lookupQueues st sid = some qs) :
    lookupQueues (broadcast st sid et d) sid
      = some (qs.map (fun q => q ++ [⟨et, d⟩])) := by
  unfold broadcast
  rw [h]
  exact lookupQueues_setQueues_self st sid _ (by simp [h])

theorem lookupQueues_broadcastAll (st : SSEState) (sid : String)
    (msgs : List (String × Json)) (qs : List (List SSEMessage))
    (h : lookupQueues st sid = some qs) :
    lookupQueues (broadcastAll st sid msgs) sid
      = some (qs.map (fun q =>
          q ++ msgs.map (fun m => (⟨m.1, m.2⟩ : SSEMessage)))) := by
  induction msgs generalizing st qs with
  | nil => simpa using h
  | cons m ms ih =>
      have hb := lookupQueues_broadcast st sid m.1 m.2 qs h
      have := ih (broadcast st sid m.1 m.2) _ hb
      rw [broadcastAll, this]
      simp [List.append_assoc]

theorem stepCallback_index_le (maxConcl maxThought idx : Nat)
    (so : StepOutput) :
    idx ≤ (stepCallback maxConcl maxThought idx so).1 ∧
      (stepCallback maxConcl maxThought idx so).1 ≤ max idx 16 := by
  cases so with
  | agentFinish o =>
      cases o with
      | none => simp [stepCallback]
      | some out =>
          simp only [stepCallback]
          split <;> [skip; simp]
          split <;> [skip; simp]
          split <;> simp
          omega
  | thought t =>
      simp only [stepCallback]
      split <;> [skip; simp]
      split <;> [skip; simp]
      split <;> simp
  | other => simp [stepCallback]

theorem runCallbacksFrom_le (maxConcl maxThought : Nat)
    (sos : List StepOutput) (start : Nat) (h : start ≤ 16) :
    runCallbacksFrom maxConcl maxThought start sos ≤ 16 := by
  induction sos generalizing start with
  | nil => simpa [runCallbacksFrom]
  | cons so rest ih =>
      have hs := stepCallback_index_le maxConcl maxThought start so
      have : (stepCallback maxConcl maxThought start so).1 ≤ 16 := by omega
      simpa [runCallbacksFrom] using ih _ this

theorem regexRecovery_raised_requires (cs : List Char)
    (h : regexRecovery cs = ExtractResult.raised) :
    (searchKeyVal "decision".data cs).isSome ∧ (searchEvents cs).isSome := by
  unfold regexRecovery at h
  cases hd : searchKeyVal "decision".data cs with
  | none => rw [hd] at h; simp at h
  | some dv =>
      rw [hd] at h
      cases he : searchEvents cs with
      | none => rw [he] at h; simp at h
      | some ev => simp [he]

theorem regexRecovery_no_decision (cs : List Char)
    (h : searchKeyVal "decision".data cs = none) :
    regexRecovery cs
      = .ok (.obj [("decision", .str "ERROR"),
                   ("raw_output", .str (String.mk (cs.take 2000)))]) := by
  unfold regexRecovery
  rw [h]

theorem extractFromString_regex (raw : String)
    (h : (braceSlice raw.data).bind parseJsonL = none) :
    extractFromString raw = regexRecovery raw.data := by
  simp [extractFromString, h]

theorem extractFromString_json (raw : String) (v : Json)
    (h : (braceSlice raw.data).bind parseJsonL = some v) :
    extractFromString raw = ExtractResult.ok v := by
  simp [extractFromString, h]

theorem runStepsList_fail (runner : Nat → Except String String) (k : Nat)
    (e : String) (hfail : runner k = .error e) :
    ∀ (n i : Nat), i ≤ k → k < i + n →
      (∀ j, i ≤ j → j < k → ∃ o, runner j = .ok o) →
      (runStepsList runner (List.range' i n)).2 = some e ∧
      (runStepsList runner (List.range' i n)).1.length = k - i ∧
      attemptedSteps runner (List.range' i n)
        = List.range' i (k - i + 1) := by
  intro n
  induction n with
  | zero => intro i h1 h2; omega
  | succ m ih =>
      intro i h1 h2 hok
      have hr : List.range' i (m + 1) = i :: List.range' (i + 1) m := rfl
      by_cases hik : i = k
      · subst hik
        rw [hr]
        simp [runStepsList, attemptedSteps, hfail]
      · have hlt : i < k := by omega
        obtain ⟨o, ho⟩ := hok i (by omega) hlt
        have hrec := ih (i + 1) (by omega) (by omega)
          (fun j hj1 hj2 => hok j (by omega) hj2)
        rw [hr]
        refine ⟨?_, ?_, ?_⟩
        · simp [runStepsList, ho]; exact hrec.1
        · simp [runStepsList, ho]
          rw [hrec.2.1]; omega
        · simp only [attemptedSteps, ho]
          rw [hrec.2.2]
          have h5 : k - i + 1 = (k - (i + 1) + 1) + 1 := by omega
          rw [h5]
          rfl

theorem asStrListAux_map_str (l : List String) :
    asStrListAux (l.map Json.str) = some l := by
  induction l with
  | nil => rfl
  | cons a t ih => simp [asStrListAux, asStr, ih]

theorem validateCalendarEvent_encode (e : CalendarEvent) :
    validateCalendarEvent (encodeCalendarEvent e) = some e := by
  cases e with
  | mk title st et atts desc =>
      simp [validateCalendarEvent, encodeCalendarEvent, Json.getField,
        asStr, asStrList, asStrListAux_map_str, bind, List.filter]

theorem validateEvents_encode (evs : List CalendarEvent) :
    validateEvents (evs.map encodeCalendarEvent) = some evs := by
  induction evs with
  | nil => rfl
  | cons e t ih =>
      simp [validateEvents, validateCalendarEvent_encode e, ih]

/-! ### Claims -/

/-- C1.  The context sets built by `_run_analysis` follow the static rule:
writing each task in rounds 1-4 as task `i+1` (`i : Fin 16`), its context
is exactly the run of task numbers of its own round that precede it, in
creation order — empty for the first task of the round (`i % 4 = 0`), and
containing only same-round tasks; task 17's context is tasks 1..16 in
original order. -/
theorem c1_context_rule :
    (∀ i : Fin 16,
        taskContext (i.val + 1)
          = List.range' (4 * (i.val / 4) + 1) (i.val % 4)) ∧
    (∀ i : Fin 16,
        (taskContext (i.val + 1)).all
          (fun j => (j - 1) / 4 == i.val / 4) = true) ∧
    taskContext 17 = List.range' 1 16 := by
  refine ⟨?_, ?_, ?_⟩ <;> decide

/-- C7.  `SSEManager.broadcast` with no registered entry for the session
returns without effect (and, being a total function, never raises or
blocks); with `N` registered queues it appends the same `{type, data}`
message to all `N`; and a sequence of broadcasts extends every queue by
exactly those messages in publish order. -/
theorem c7_broadcast_spec (st : SSEState) (sid et : String) (d : Json) :
    (lookupQueues st sid = none → broadcast st sid et d = st) ∧
    (∀ qs, lookupQueues st sid = some qs →
        lookupQueues (broadcast st sid et d) sid
          = some (qs.map (fun q => q ++ [⟨et, d⟩]))) ∧
    (∀ qs msgs, lookupQueues st sid = some qs →
        lookupQueues (broadcastAll st sid msgs) sid
          = some (qs.map (fun q =>
              q ++ msgs.map (fun m => (⟨m.1, m.2⟩ : SSEMessage))))) := by
  refine ⟨?_, ?_, ?_⟩
  · intro h; unfold broadcast; rw [h]
  · intro qs h; exact lookupQueues_broadcast st sid et d qs h
  · intro qs msgs h; exact lookupQueues_broadcastAll st sid msgs qs h

/-- C7 witness: broadcasting to a session with two subscribers delivers the
message to both queues; broadcasting to an unknown session is a no-op. -/
theorem c7_broadcast_spec_witness :
    broadcast [("s", [[], []])] "other" "ping" Json.null
        = [("s", [[], []])] ∧
    lookupQueues (broadcast [("s", [[], []])] "s" "ping" Json.null) "s"
        = some [[⟨"ping", Json.null⟩], [⟨"ping", Json.null⟩]] := by
  have h := c7_broadcast_spec [("s", [[], []])] "other" "ping" Json.null
  have h2 := c7_broadcast_spec [("s", [[], []])] "s" "ping" Json.null
  exact ⟨h.1 (by simp [lookupQueues]), h2.2.1 [[], []] (by simp [lookupQueues])⟩

/-- C8.  For a session whose pointer is in range, one `_step_callback`
invocation never decreases `current_task_index`, never pushes it beyond
index 16 (task 17), and changes it only on an `AgentFinish` whose output
text exceeds 100 characters — the broadcast conclusion case — never on
thoughts; and across any sequence of invocations starting from 0 the
pointer stays at most 16. -/
theorem c8_pointer_monotone (maxConcl maxThought idx : Nat)
    (so : StepOutput) (h : idx ≤ 16) :
    idx ≤ (stepCallback maxConcl maxThought idx so).1 ∧
    (stepCallback maxConcl maxThought idx so).1 ≤ 16 ∧
    ((stepCallback maxConcl maxThought idx so).1 ≠ idx →
        ∃ out, so = StepOutput.agentFinish (some out) ∧ out.length > 100 ∧
          (stepCallback maxConcl maxThought idx so).2.isSome) ∧
    (∀ sos : List StepOutput, runCallbacks maxConcl maxThought sos ≤ 16) := by
  have hle := stepCallback_index_le maxConcl maxThought idx so
  refine ⟨hle.1, by omega, ?_, fun sos =>
    runCallbacksFrom_le maxConcl maxThought sos 0 (by omega)⟩
  intro hne
  cases so with
  | agentFinish o =>
      cases o with
      | none => simp [stepCallback] at hne
      | some out =>
          refine ⟨out, rfl, ?_⟩
          simp only [stepCallback] at hne ⊢
          by_cases h1 : out.length > 100
          · simp only [if_pos h1] at hne ⊢
            by_cases h2 : ("✅ " ++ out.take maxConcl).trim.length > 0
            · simp [h1, h2]
            · simp [h2] at hne
          · simp [h1] at hne
  | thought t =>
      exfalso
      simp only [stepCallback] at hne
      split at hne <;> [skip; simp at hne]
      split at hne <;> [skip; simp at hne]
      split at hne <;> simp at hne
  | other => simp [stepCallback] at hne

/-- C8 witness at a concrete in-range pointer and a concrete long
conclusion. -/
theorem c8_pointer_monotone_witness :
    3 ≤ (stepCallback 10000 5000 3 StepOutput.other).1 ∧
      (stepCallback 10000 5000 3 StepOutput.other).1 ≤ 16 := by
  have h := c8_pointer_monotone 10000 5000 3 StepOutput.other (by decide)
  exact ⟨h.1, h.2.1⟩

/-- C9.  A short final conclusion does not advance the pointer and is not
broadcast: an `AgentFinish` whose output has at most 100 characters, and a
thought of at most 20 characters or starting with "I tried reusing",
leave `current_task_index` unchanged and publish no `agent_message`. -/
theorem c9_short_outputs_silent (maxConcl maxThought idx : Nat) :
    (∀ out : String, out.length ≤ 100 →
        stepCallback maxConcl maxThought idx
          (StepOutput.agentFinish (some out)) = (idx, none)) ∧
    (∀ t : String,
        (t.length ≤ 20 ∨ pyStartsWith t "I tried reusing" = true) →
        stepCallback maxConcl maxThought idx (StepOutput.thought t)
          = (idx, none)) := by
  constructor
  · intro out hlen
    simp [stepCallback, Nat.not_lt.mpr hlen]
  · intro t ht
    simp only [stepCallback]
    split
    · rw [if_neg]
      rintro ⟨h1, h2⟩
      rcases ht with h | h
      · omega
      · rw [h] at h2; exact absurd h2 (by simp)
    · rfl

/-- C9 witness: a 2-character conclusion and an "I tried reusing" thought
are both silent at pointer 5. -/
theorem c9_short_outputs_silent_witness :
    stepCallback 10000 5000 5 (StepOutput.agentFinish (some "ok"))
        = (5, none) ∧
    stepCallback 10000 5000 5
        (StepOutput.thought "I tried reusing the same input, try again")
        = (5, none) := by
  have h := c9_short_outputs_silent 10000 5000 5
  exact ⟨h.1 "ok" (by decide),
    h.2 "I tried reusing the same input, try again" (Or.inr (by decide))⟩

/-- C2 counterexample.  The decision extraction both (a) raises on a raw
output whose regex-recovered `calendar_events` substring is not valid
JSON, and (b) passes a successfully parsed embedded-JSON object through
with no validation, so the `"decision"` field can be an arbitrary string
(here the unnormalized `"yes"`), not one of PASS/MAYBE/INVEST/ERROR. -/
theorem c2_counterexample :
    extractFromString
        "x \"decision\": \"INVEST\" \"calendar_events\": [oops]"
      = ExtractResult.raised ∧
    extractFromString "\x7b\"decision\": \"yes\"\x7d"
      = ExtractResult.ok (Json.obj [("decision", Json.str "yes")]) ∧
    (Json.obj [("decision", Json.str "yes")]).getStr "decision"
      = some "yes" ∧
    "yes" ≠ "PASS" ∧ "yes" ≠ "MAYBE" ∧ "yes" ≠ "INVEST" ∧
    "yes" ≠ "ERROR" := by
  refine ⟨by rfl, by rfl, by rfl, ?_, ?_, ?_, ?_⟩ <;> decide

/-- C2 amended.  The extraction raises only inside field-level regex
recovery, when both a decision value and a `calendar_events` bracket
substring were regex-matched (and the latter fails `json.loads`); when
neither the embedded-JSON parse nor the decision regex recovers anything,
the result is the terminal sentinel: decision `ERROR` with the raw text
truncated to 2000 characters.  No produced decision value is validated
against the PASS/MAYBE/INVEST enum. -/
theorem c2_extraction_amended (raw : String) :
    (extractFromString raw = ExtractResult.raised →
        (searchKeyVal "decision".data raw.data).isSome ∧
        (searchEvents raw.data).isSome) ∧
    ((braceSlice raw.data).bind parseJsonL = none →
        searchKeyVal "decision".data raw.data = none →
        extractFromString raw
          = .ok (.obj [("decision", .str "ERROR"),
                       ("raw_output",
                         .str (String.mk (raw.data.take 2000)))])) := by
  constructor
  · intro h
    cases hb : (braceSlice raw.data).bind parseJsonL with
    | none =>
        rw [extractFromString_regex raw hb] at h
        exact regexRecovery_raised_requires raw.data h
    | some v => rw [extractFromString_json raw v hb] at h; simp at h
  · intro h1 h2
    rw [extractFromString_regex raw h1]
    exact regexRecovery_no_decision raw.data h2

/-- C2 amended witness: on raw output `"hello"` (no braces, no decision
pattern) the extraction yields the ERROR sentinel. -/
theorem c2_extraction_amended_witness :
    extractFromString "hello"
      = ExtractResult.ok
          (Json.obj [("decision", Json.str "ERROR"),
                     ("raw_output",
                       Json.str (String.mk ("hello".data.take 2000)))]) :=
  (c2_extraction_amended "hello").2 (by rfl) (by rfl)

/-- C4 counterexample.  On `'{"decision": "invest"}'` the embedded-JSON
scan succeeds and the parsed object is used verbatim: the decision field
stays lowercase `"invest"` (no case normalization to uppercase, no
validation) and no `calendar_events` key is added (no defaulting to an
empty array). -/
theorem c4_counterexample :
    extractFromString "\x7b\"decision\": \"invest\"\x7d"
      = ExtractResult.ok (Json.obj [("decision", Json.str "invest")]) ∧
    (Json.obj [("decision", Json.str "invest")]).getField "calendar_events"
      = none ∧
    pyUpper "invest" = "INVEST" ∧ "invest" ≠ "INVEST" := by
  exact ⟨by rfl, by rfl, by rfl, by decide⟩

/-- C4 amended.  The embedded-JSON strategy takes the substring from the
first `{` to the last `}` (`braceSlice`) and parses it with `json.loads`;
whenever that parse succeeds, the parsed value is returned verbatim as
the decision object — no validation of the decision field, no uppercase
normalization, and no defaulting of `calendar_events` happen on this
path (those appear only in the regex-recovery fallback). -/
theorem c4_embedded_json_verbatim (raw : String) (v : Json)
    (h : (braceSlice raw.data).bind parseJsonL = some v) :
    extractFromString raw = ExtractResult.ok v :=
  extractFromString_json raw v h

/-- C4 amended witness: the empty object round-trips verbatim. -/
theorem c4_embedded_json_verbatim_witness :
    extractFromString "\x7b\x7d" = ExtractResult.ok (Json.obj []) :=
  c4_embedded_json_verbatim "\x7b\x7d" (Json.obj []) (by rfl)

/-- C3 failing step runner: step 3 raises `"boom"`, others succeed. -/
def c3runner : Nat → Except String String :=
  fun i => if i = 3 then .error "boom" else .ok "out"

/-- C3 counterexample.  With a runner failing at step 3, the session does
become `failed` and no later step is attempted, but the surfaced error is
the exception text verbatim (`"boom"` — no last-completed-step index),
and the session's captured task-output list is absent, so `get_result`
reports 0 entries, not k−1 = 2: the partial outputs are not preserved on
the session. -/
theorem c3_counterexample :
    runAnalysis 50000 c3runner = ⟨"failed", some "boom", none⟩ ∧
    attemptedSteps c3runner (List.range' 1 17) = [1, 2, 3] ∧
    getResultOutputs (runAnalysis 50000 c3runner) = [] ∧
    (getResultOutputs (runAnalysis 50000 c3runner)).length ≠ 3 - 1 := by
  refine ⟨by rfl, by rfl, by rfl, by decide⟩

/-- C3 amended.  If the step-running call fails at step k (all earlier
steps succeeding), the pipeline attempts exactly steps 1..k and no
further ones, the internal output list holds the k−1 completed outputs,
and the session becomes `failed` — but the error stored on the session is
the exception text verbatim (no step index is appended by the
orchestrator), and the session's `task_outputs` key is never written, so
`get_result` returns an empty list rather than the k−1 partial
records. -/
theorem c3_failure_semantics (runner : Nat → Except String String)
    (maxOut k : Nat) (e : String) (hk1 : 1 ≤ k) (hk2 : k ≤ 17)
    (hfail : runner k = .error e)
    (hok : ∀ j, 1 ≤ j → j < k → ∃ o, runner j = .ok o) :
    attemptedSteps runner (List.range' 1 17) = List.range' 1 k ∧
    (runSteps runner).1.length = k - 1 ∧
    runAnalysis maxOut runner = ⟨"failed", some e, none⟩ ∧
    getResultOutputs (runAnalysis maxOut runner) = [] := by
  have h := runStepsList_fail runner k e hfail 17 1 hk1 (by omega) hok
  have hs : k - 1 + 1 = k := by omega
  refine ⟨by rw [h.2.2, hs], h.2.1, ?_, ?_⟩
  · unfold runAnalysis
    have h2 := h.1
    unfold runSteps
    cases hr : runStepsList runner (List.range' 1 17) with
    | mk outs err =>
        rw [hr] at h2
        simp at h2
        simp [h2]
  · unfold getResultOutputs
    unfold runAnalysis
    cases hr : runSteps runner with
    | mk outs err =>
        have h2 := h.1
        unfold runSteps at hr
        rw [hr] at h2
        simp at h2
        simp [h2]

/-- C5 deployment-id configuration with every service configured. -/
def c5deploy : String → Option String := fun _ => some "dep"

/-- The session created by the first C5 initiate call. -/
def c5s0 : OAuthSession :=
  ⟨0, "gcalendar", "https://oauth.metorial.com/session/0"⟩

/-- The session created by the second C5 initiate call. -/
def c5s1 : OAuthSession :=
  ⟨1, "gcalendar", "https://oauth.metorial.com/session/1"⟩

/-- C5 counterexample.  From an empty client state, a first
`create_oauth_session("gcalendar", auto_wait=False)` leaves a pending
session; a second initiate call while that session is still pending does
NOT return it — only the completed cache is consulted — but creates and
tracks a distinct new session, so two pending sessions for the same
service coexist. -/
theorem c5_counterexample :
    createOauthSessionNoWait c5deploy ⟨[], [], 0⟩ "gcalendar"
      = .ok (⟨[], [(0, c5s0)], 1⟩, ⟨c5s0, some c5s0.url, false⟩) ∧
    createOauthSessionNoWait c5deploy ⟨[], [(0, c5s0)], 1⟩ "gcalendar"
      = .ok (⟨[], [(0, c5s0), (1, c5s1)], 2⟩,
             ⟨c5s1, some c5s1.url, false⟩) ∧
    pendingCountFor ⟨[], [(0, c5s0), (1, c5s1)], 2⟩ "gcalendar" = 2 ∧
    c5s1 ≠ c5s0 := by
  refine ⟨by rfl, by rfl, by rfl, by decide⟩

/-- C5 amended.  A second initiate call returns the existing session
without creating one only when a *completed* session is cached; when the
service has no completed session — in particular while a previous
session is merely pending — every initiate call creates and tracks a
fresh pending session, growing the per-service pending count, so more
than one pending session per service can exist. -/
theorem c5_initiate_amended (deployIds : String → Option String)
    (st : MCPState) (name d : String) (hreq : oauthRequired name = true)
    (hdep : deployIds name = some d) :
    (∀ s, lookupSession st.oauthSessions name = some s →
        createOauthSessionNoWait deployIds st name
          = .ok (st, ⟨s, none, true⟩)) ∧
    (lookupSession st.oauthSessions name = none →
        createOauthSessionNoWait deployIds st name
            = .ok (afterCreate st name,
                ⟨freshOAuthSession st name,
                 some (freshOAuthSession st name).url, false⟩) ∧
          (freshOAuthSession st name).id = st.nextId ∧
          pendingCountFor (afterCreate st name) name
            = pendingCountFor st name + 1) := by
  refine ⟨?_, ?_⟩
  · intro s hs
    simp [createOauthSessionNoWait, hreq, hdep, hs]
  · intro hnone
    refine ⟨?_, rfl, ?_⟩
    · simp [createOauthSessionNoWait, hreq, hdep, hnone]
    · simp [pendingCountFor, afterCreate, List.filter_append,
        freshOAuthSession]

/-- C5 amended witness: from the empty state, initiating `gcalendar`
creates a fresh pending session and the pending count grows by one. -/
theorem c5_initiate_amended_witness :
    createOauthSessionNoWait c5deploy ⟨[], [], 0⟩ "gcalendar"
        = .ok (afterCreate ⟨[], [], 0⟩ "gcalendar",
            ⟨freshOAuthSession ⟨[], [], 0⟩ "gcalendar",
             some (freshOAuthSession ⟨[], [], 0⟩ "gcalendar").url,
             false⟩) ∧
      (freshOAuthSession ⟨[], [], 0⟩ "gcalendar").id = 0 ∧
      pendingCountFor (afterCreate ⟨[], [], 0⟩ "gcalendar") "gcalendar"
        = pendingCountFor ⟨[], [], 0⟩ "gcalendar" + 1 :=
  (c5_initiate_amended c5deploy ⟨[], [], 0⟩ "gcalendar" "dep"
    (by rfl) (by rfl)).2 (by rfl)

/-- C6 example calendar event. -/
def c6event : CalendarEvent :=
  ⟨"Meet founders", "2025-01-01T10:00:00", "2025-01-01T11:00:00",
    ["partner@fund.example"], "Follow-up"⟩

/-- C6 counterexample.  Constructing an `InvestmentDecision` with
decision `PASS` and two calendar events succeeds unchanged: pydantic
validates only the field types, so an input violating the PASS ⇒ 0
events rule is neither rejected nor corrected. -/
theorem c6_counterexample :
    validateInvestmentDecision
        (mkDecisionJson "PASS" "r" "m" [c6event, c6event])
      = some ⟨"PASS", "r", "m", [c6event, c6event]⟩ ∧
    ([c6event, c6event].length = 2 ∧ (2 : Nat) ≠ 0) := by
  exact ⟨by rfl, by decide⟩

/-- C6 amended.  Construction of `InvestmentDecision` enforces only
types: any decision among PASS/MAYBE/INVEST together with any well-typed
event list — regardless of the event count or of start/end ordering — is
accepted verbatim; conversely everything the model does accept has its
decision in that three-value literal (nothing else about the
decision/calendar count relation is enforced). -/
theorem c6_construction_types_only (d r m : String)
    (evs : List CalendarEvent)
    (hd : d = "PASS" ∨ d = "MAYBE" ∨ d = "INVEST") :
    validateInvestmentDecision (mkDecisionJson d r m evs)
      = some ⟨d, r, m, evs⟩ ∧
    (∀ j dec, validateInvestmentDecision j = some dec →
        dec.decision = "PASS" ∨ dec.decision = "MAYBE" ∨
          dec.decision = "INVEST") := by
  constructor
  · show (if d = "PASS" ∨ d = "MAYBE" ∨ d = "INVEST" then
        match validateEvents (List.map encodeCalendarEvent evs) with
        | some evs2 =>
            some (⟨d, r, m, evs2⟩ : InvestmentDecision)
        | none => none
      else none) = some ⟨d, r, m, evs⟩
    rw [if_pos hd, validateEvents_encode evs]
  · intro j dec hdec
    unfold validateInvestmentDecision at hdec
    split at hdec
    · next d0 r0 m0 l0 =>
        split at hdec
        · next hc =>
            split at hdec
            · next evs0 hevs =>
                cases hdec
                exact hc
            · exact absurd hdec (by simp)
        · exact absurd hdec (by simp)
    · exact absurd hdec (by simp)

/-- C6 amended witness: a MAYBE decision with zero events (also violating
the claimed MAYBE ⇒ exactly-one-event rule) is accepted verbatim. -/
theorem c6_construction_types_only_witness :
    validateInvestmentDecision (mkDecisionJson "MAYBE" "r" "m" [])
      = some ⟨"MAYBE", "r", "m", []⟩ :=
  (c6_construction_types_only "MAYBE" "r" "m" []
    (Or.inr (Or.inl rfl))).1

/-- C3 amended witness: the concrete runner failing at step 3. -/
theorem c3_failure_semantics_witness :
    attemptedSteps c3runner (List.range' 1 17) = List.range' 1 3 ∧
    (runSteps c3runner).1.length = 3 - 1 ∧
    runAnalysis 1000 c3runner = ⟨"failed", some "boom", none⟩ ∧
    getResultOutputs (runAnalysis 1000 c3runner) = [] :=
  c3_failure_semantics c3runner 1000 3 "boom" (by decide) (by decide)
    (by rfl)
    (fun j _ hj => ⟨"out", by
      show (if j = 3 then (Except.error "boom" : Except String String)
          else Except.ok "out") = Except.ok "out"
      rw [if_neg (by omega)]⟩)

/-- C10.  After a completed analysis with decision `MAYBE`, provided the
external job-content generation call returns (`jobContent = .ok c`; its
failure is swallowed) and the reasoning field is text or absent (a
non-string would crash `.lower()`), the `freelancer_job_notification`
event is published (before the terminal `phase_change "completed"`,
which is always the last event) if and only if the reasoning contains,
case-insensitively, one of the twelve fixed uncertainty keywords
(`shouldHire`).  The calendar-creation events, which are never
freelancer notifications, do not affect this. -/
theorem c10_freelancer_notification (decision : Json) (c : String)
    (calendarMsgs : List Event)
    (hm : decision.getStr "decision" = some "MAYBE")
    (_hr : decision.getField "reasoning" = none ∨
          ∃ s, decision.getField "reasoning" = some (Json.str s))
    (hcal : ∀ e ∈ calendarMsgs, e.isFreelancer = false) :
    postDecisionEvents decision (.ok c) calendarMsgs
        = preTerminalEvents decision (.ok c) calendarMsgs
            ++ [Event.phaseChange "completed"] ∧
    ((∃ e ∈ preTerminalEvents decision (.ok c) calendarMsgs,
          e.isFreelancer = true) ↔
      shouldHire ((decision.getStr "reasoning").getD "") = true) := by
  refine ⟨rfl, ?_⟩
  by_cases hs : shouldHire ((decision.getStr "reasoning").getD "") = true
  · simp only [hs, iff_true]
    refine ⟨Event.freelancerNotification c, ?_, rfl⟩
    simp [preTerminalEvents, freelancerBlock, hm, hs]
  · refine iff_of_false ?_ hs
    rintro ⟨e, hmem, hfr⟩
    simp only [preTerminalEvents, freelancerBlock, hm, hs,
      List.mem_cons, List.mem_append, if_false] at hmem
    rcases hmem with h | h | h
    · subst h; simp [Event.isFreelancer] at hfr
    · simp at h
    · unfold calendarBlock at h
      split at h
      · exact absurd hfr (by simp [hcal e h])
      · simp at h

/-- C10 witness: a MAYBE decision whose reasoning mentions "split"
triggers the notification before the terminal phase change. -/
theorem c10_freelancer_notification_witness :
    postDecisionEvents
          (Json.obj [("decision", Json.str "MAYBE"),
                     ("reasoning",
                       Json.str "The partners are split on the market")])
          (.ok "Research gig") []
        = preTerminalEvents
              (Json.obj [("decision", Json.str "MAYBE"),
                         ("reasoning",
                           Json.str "The partners are split on the market")])
              (.ok "Research gig") []
            ++ [Event.phaseChange "completed"] ∧
    ((∃ e ∈ preTerminalEvents
          (Json.obj [("decision", Json.str "MAYBE"),
                     ("reasoning",
                       Json.str "The partners are split on the market")])
          (.ok "Research gig") [],
        e.isFreelancer = true) ↔
      shouldHire
          (((Json.obj [("decision", Json.str "MAYBE"),
                       ("reasoning",
                         Json.str "The partners are split on the market")]
             ).getStr "reasoning").getD "") = true) :=
  c10_freelancer_notification
    (Json.obj [("decision", Json.str "MAYBE"),
               ("reasoning",
                 Json.str "The partners are split on the market")])
    "Research gig" [] (by rfl)
    (Or.inr ⟨"The partners are split on the market", by rfl⟩)
    (by simp)

end Socratspace
